import Mathlib

/-!
Shallow embedding of the two engines of the protovis fork under verification:

* the Dot shape-mark resolver (`src/src/mark/Dot.js`): implied-property
  resolution (`buildImplied`), anchor position/text functions (`anchor`) and
  hit-test primitive extraction (`getShapeCore`); modelled over `ℝ`, with
  unset JavaScript properties (`null`/`undefined`) as `Option.none`;

* the ordinal scale (`src/unnamed/part_000`, `pv.Scale.ordinal`): lazy domain
  discovery, domain deduplication, the split algorithms and `invertIndex`;
  modelled over `ℚ` so every definition is executable.
-/

namespace Protovis

/-- A resolved (or partially resolved) Dot scene instance: the property bag
for one data index.  Unset properties (`null`/`undefined` in JavaScript) are
`none`.  The fields `heightI`/`widthI` model the internal `_height`/`_width`
fields of the source. -/
structure DotScene where
  shape : String
  shapeRadius : Option ℝ
  shapeSize : Option ℝ
  aspectRatio : Option ℝ
  left : ℝ
  top : ℝ
  right : ℝ
  bottom : ℝ
  heightI : ℝ
  widthI : ℝ

/-- The effective aspect ratio: `var a = s.aspectRatio || 1` — JavaScript's
`||` replaces any falsy value (`undefined`, `null`, `0`) by `1`. -/
noncomputable def effAspect (s : DotScene) : ℝ :=
  match s.aspectRatio with
  | none => 1
  | some v => if v = 0 then 1 else v

open Classical in
/-- `pv.Dot.prototype.buildImplied` (Dot.js lines 224-254): resolves the
radius/size duality and computes the internal `_height`/`_width` from the
radius and the aspect ratio. -/
noncomputable def buildImplied (s : DotScene) : DotScene :=
  let rz : ℝ × ℝ :=
    match s.shapeRadius, s.shapeSize with
    | none, none => (4.5, 20.25)
    | none, some z => (Real.sqrt z, z)
    | some r, none => (r, r * r)
    | some r, some z => (r, z)
  let r := rz.1
  let z := rz.2
  let a := effAspect s
  let hw : ℝ × ℝ :=
    if a = 1 ∨ a < 0 then (2 * r, 2 * r)
    else
      let h := 2 * r / Real.sqrt a
      (h, a * h)
  { s with shapeRadius := some r, shapeSize := some z,
           heightI := hw.1, widthI := hw.2 }

/-- The `left` property function of a Dot anchor (Dot.js lines 175-184),
reading the host's resolved scene instance `s`; `none` models `null`. -/
noncomputable def anchorLeft (s : DotScene) (name : String) : Option ℝ :=
  match name with
  | "bottom" => some s.left
  | "top" => some s.left
  | "center" => some s.left
  | "left" => none
  | _ => some (s.left + s.widthI / 2)

/-- The `right` property function of a Dot anchor (Dot.js lines 185-188). -/
noncomputable def anchorRight (s : DotScene) (name : String) : Option ℝ :=
  if name = "left" then some (s.right + s.widthI / 2) else none

/-- The `top` property function of a Dot anchor (Dot.js lines 189-198). -/
noncomputable def anchorTop (s : DotScene) (name : String) : Option ℝ :=
  match name with
  | "left" => some s.top
  | "right" => some s.top
  | "center" => some s.top
  | "top" => none
  | _ => some (s.top + s.heightI / 2)

/-- The `bottom` property function of a Dot anchor (Dot.js lines 199-202):
for the "top" anchor it reads the host's `bottom` coordinate. -/
noncomputable def anchorBottom (s : DotScene) (name : String) : Option ℝ :=
  if name = "top" then some (s.bottom + s.heightI / 2) else none

/-- The `textAlign` property function of a Dot anchor (Dot.js lines 203-211). -/
def anchorTextAlign (name : String) : String :=
  match name with
  | "left" => "right"
  | "bottom" => "center"
  | "top" => "center"
  | "center" => "center"
  | _ => "left"

/-- The `textBaseline` property function of a Dot anchor (Dot.js 212-220). -/
def anchorTextBaseline (name : String) : String :=
  match name with
  | "right" => "middle"
  | "left" => "middle"
  | "center" => "middle"
  | "bottom" => "top"
  | _ => "bottom"

/-- Modelled from the spec: the geometric hit-test primitives produced by
`getShapeCore`.  The classes `pv.Shape.Rect(x, y, width, height)` and
`pv.Shape.Circle(cx, cy, radius)` are external collaborators not under
`src/`; they simply record their constructor arguments. -/
inductive PvShape where
  | rect (x y width height : ℝ)
  | circle (cx cy radius : ℝ)

/-- `pv.Dot.prototype.getShapeCore` (Dot.js lines 264-288): the hit-test
primitive of a resolved scene instance.  Note the deliberate swap:
`h = s._width` and `w = s._height`. -/
noncomputable def getShapeCore (s : DotScene) : PvShape :=
  let h := s.widthI
  let w := s.heightI
  let cx := s.left
  let cy := s.top
  match s.shape with
  | "diamond" =>
      let h := h * Real.sqrt 2
      let w := w * Real.sqrt 2
      PvShape.rect (cx - w / 2) (cy - h / 2) w h
  | "square" => PvShape.rect (cx - w / 2) (cy - h / 2) w h
  | "cross" => PvShape.rect (cx - w / 2) (cy - h / 2) w h
  | _ => PvShape.circle cx cy ((s.shapeRadius).getD 0)

/-! ### Ordinal scale (`pv.Scale.ordinal`, `src/unnamed/part_000`) -/

/-- Modelled from the spec: the numeric range-generation collaborator
`pv.range(start, stop, step)` (§6: "produce an evenly spaced sequence from a
start, exclusive/inclusive end, and step"), not under `src/`.  With a
positive step it yields `start, start+step, …` while strictly below `stop`;
with a non-positive step (where the JavaScript loop would not advance or
would descend) it yields the empty sequence for the ascending uses the scale
makes of it. -/
def pvRange (start stop step : ℚ) : List ℚ :=
  if 0 < step then
    (List.range (Int.toNat ⌈(stop - start) / step⌉)).map
      (fun k : ℕ => start + step * (k : ℚ))
  else []

/-- Modelled from the spec: the collaborator `pv.array(n, v)` used by the
degenerate branches of `split`/`splitBandedFlushCenter` (§4.2/§7: "a
zero-width range repeated `N` times"). -/
def pvArray (n : ℕ) (v : ℚ) : List ℚ :=
  List.replicate n v

/-- A scale range: the list of produced positions plus the scalar
annotations the source attaches to the range array.  Annotations that a
given split algorithm does not assign stay `none` (JavaScript
`undefined`). -/
structure SRange where
  vals : List ℚ
  min : ℚ
  max : ℚ
  step : Option ℚ
  band : Option ℚ
  margin : Option ℚ
deriving DecidableEq

/-- The mutable state of an ordinal scale: the domain `d` and the index
object `i` (an association list modelling the JavaScript object's keys). -/
structure OrdState (α : Type) where
  d : List α
  idx : List (α × ℕ)
deriving DecidableEq

/-- Key lookup in the index object: `i[x]`, `x in i`. -/
def lookupIdx {α : Type} [DecidableEq α] : List (α × ℕ) → α → Option ℕ
  | [], _ => none
  | (a, n) :: t, x => if x = a then some n else lookupIdx t x

/-- The position of a value in a list (`domain.indexOf(v)`, as an option). -/
def posOf {α : Type} [DecidableEq α] : List α → α → Option ℕ
  | [], _ => none
  | a :: t, x => if x = a then some 0 else (posOf t x).map (· + 1)

/-- Modelled from the spec: the collaborator `pv.numerate` (§6: "assign
sequential integer indices to first-seen unique values"), starting at `k`. -/
def numerateFrom {α : Type} (k : ℕ) : List α → List (α × ℕ)
  | [] => []
  | a :: t => (a, k) :: numerateFrom (k + 1) t

/-- `pv.numerate(d)`: index object mapping `d[j] ↦ j`. -/
def numerate {α : Type} (d : List α) : List (α × ℕ) :=
  numerateFrom 0 d

/-- The deduplication loop of `scale.domain` (part_000 lines 98-107):
filter the specified ordinals to their unique values, first-seen order. -/
def jsDedup {α : Type} [DecidableEq α] (xs : List α) : List α :=
  xs.foldl (fun acc o => if o ∈ acc then acc else acc ++ [o]) []

/-- The lazy-discovery step of the scale function (part_000 line 62):
`if (!(x in i)) i[x] = d.push(x) - 1`. -/
def discover {α : Type} [DecidableEq α] (st : OrdState α) (x : α) :
    OrdState α :=
  match lookupIdx st.idx x with
  | some _ => st
  | none => ⟨st.d ++ [x], (x, st.d.length) :: st.idx⟩

/-- Invoking the scale (part_000 lines 61-64): perform discovery, then
return `r[i[x] % r.length]` together with the updated state. -/
def scaleApply {α β : Type} [DecidableEq α] (st : OrdState α) (r : List β)
    (x : α) : OrdState α × Option β :=
  let st' := discover st x
  (st', r.get? (((lookupIdx st'.idx x).getD 0) % r.length))

/-- The domain setter (part_000 lines 92-113) applied to a value list:
dedup to first-seen uniques, then `i = pv.numerate(d)`. -/
def setDomain {α : Type} [DecidableEq α] (vals : List α) : OrdState α :=
  let d := jsDedup vals
  ⟨d, numerate d⟩

/-- An operation on the scale's domain state: an explicit domain-setter
call, or an invocation of the scale on a value. -/
inductive ScaleOp (α : Type) where
  | domainOp (vals : List α)
  | invokeOp (x : α)

/-- Apply one operation to the state. -/
def applyOp {α : Type} [DecidableEq α] (st : OrdState α) :
    ScaleOp α → OrdState α
  | .domainOp vals => setDomain vals
  | .invokeOp x => discover st x

/-- Apply a sequence of operations, starting from `st`. -/
def applyOps {α : Type} [DecidableEq α] (st : OrdState α) :
    List (ScaleOp α) → OrdState α
  | [] => st
  | op :: t => applyOps (applyOp st op) t

/-- A fresh scale's state (`var d = [], i = {}`). -/
def initState (α : Type) : OrdState α := ⟨[], []⟩

/-- `scale.split(min, max)` (part_000 lines 175-189).  The `N = 0, R ≠ 0`
case, where the source leaves the previous range array in place, is modelled
as the empty list (no claim exercises it). -/
def split (N : ℕ) (mn mx : ℚ) : SRange :=
  let R := mx - mn
  if R = 0 then
    { vals := pvArray N mn, min := mn, max := mx,
      step := some 0, band := none, margin := none }
  else if N ≠ 0 then
    let step := (mx - mn) / N
    { vals := pvRange (mn + step / 2) mx step, min := mn, max := mx,
      step := some step, band := none, margin := none }
  else
    { vals := [], min := mn, max := mx,
      step := some 0, band := none, margin := none }

/-- `scale.splitFlush(min, max)` (part_000 lines 309-318).  Note: this
algorithm attaches only `min`/`max`, no `step`/`band`/`margin`. -/
def splitFlush (N : ℕ) (mn mx : ℚ) : SRange :=
  let step := (mx - mn) / ((N : ℚ) - 1)
  if N = 1 then
    { vals := [(mn + mx) / 2], min := mn, max := mx,
      step := none, band := none, margin := none }
  else
    { vals := pvRange mn (mx + step / 2) step, min := mn, max := mx,
      step := none, band := none, margin := none }

/-- `scale.splitBanded(min, max, band)` (part_000 lines 362-381); a missing
third argument is `band = 1`.  In the fixed-width branch (`band < 0`) the
source attaches only `band`, not `step`/`margin`. -/
def splitBanded (N : ℕ) (mn mx : ℚ) (bandArg : Option ℚ) : SRange :=
  let band := bandArg.getD 1
  if band < 0 then
    let total := -band * N
    let remaining := mx - mn - total
    let padding := remaining / ((N : ℚ) + 1)
    { vals := pvRange (mn + padding) mx (padding - band),
      min := mn, max := mx,
      step := none, band := some (-band), margin := none }
  else
    let step := (mx - mn) / ((N : ℚ) + (1 - band))
    { vals := pvRange (mn + step * (1 - band)) mx step,
      min := mn, max := mx,
      step := some step, band := some (step * band),
      margin := some (step - step * band) }

/-- `scale.splitBandedCenter(min, max, band)` (part_000 lines 222-232):
delegates to `split`, then centers bands on the computed positions. -/
def splitBandedCenter (N : ℕ) (mn mx : ℚ) (bandArg : Option ℚ) : SRange :=
  let r0 := split N mn mx
  let band := bandArg.getD 1
  let step := r0.step.getD 0
  { r0 with band := some (step * band), margin := some (step - step * band) }

/-- `scale.splitBandedFlushCenter(min, max, band)` (part_000 lines
266-292).  The `N = 0, R ≠ 0` case is modelled as the empty list. -/
def splitBandedFlushCenter (N : ℕ) (mn mx : ℚ) (bandArg : Option ℚ) :
    SRange :=
  let band := bandArg.getD 1
  let R := mx - mn
  if R = 0 then
    { vals := pvArray N mn, min := mn, max := mx,
      step := some 0, band := some 0, margin := some 0 }
  else if N ≠ 0 then
    let B := R * band / N
    let M := if 1 < N then (R - N * B) / ((N : ℚ) - 1) else 0
    let S := M + B
    { vals := pvRange (mn + B / 2) mx S, min := mn, max := mx,
      step := some S, band := some B, margin := some M }
  else
    { vals := [], min := mn, max := mx,
      step := some 0, band := some 0, margin := some 0 }

/-- JavaScript's `Math.round`: round half toward positive infinity. -/
def jsRound (q : ℚ) : ℤ :=
  ⌊q + 1 / 2⌋

/-- `scale.invertIndex(y, noRound)` (part_000 lines 398-421), with the
domain length `N` and the range's `min`/`max` annotations as inputs. -/
def invertIndex (N : ℕ) (rmin rmax : ℚ) (y : ℚ) (noRound : Bool) : ℚ :=
  if N = 0 then -1
  else
    let R := rmax - rmin
    if R = 0 then 0
    else
      let S := R / N
      if rmax ≤ y then N
      else if y < rmin then 0
      else
        let i := (y - rmin) / S
        if noRound then i else jsRound i

/-! ### Helper lemmas about the index object and domain lists -/

theorem posOf_eq_none_iff {α : Type} [DecidableEq α] (l : List α) (v : α) :
    posOf l v = none ↔ v ∉ l := by
  induction l with
  | nil => simp [posOf]
  | cons a t ih =>
      by_cases h : v = a
      · simp [posOf, h]
      · simp [posOf, h, Option.map_eq_none', ih]

theorem posOf_append_of_mem {α : Type} [DecidableEq α] {l : List α}
    {v : α} (x : α) (h : v ∈ l) : posOf (l ++ [x]) v = posOf l v := by
  induction l with
  | nil => cases h
  | cons a t ih =>
      by_cases hv : v = a
      · simp [posOf, hv]
      · have ht : v ∈ t := by simpa [hv] using h
        simp [posOf, hv, ih ht]

theorem posOf_append_of_not_mem {α : Type} [DecidableEq α] {l : List α}
    {v : α} (x : α) (h : v ∉ l) :
    posOf (l ++ [x]) v = if v = x then some l.length else none := by
  induction l with
  | nil => by_cases hx : v = x <;> simp [posOf, hx]
  | cons a t ih =>
      have hv : v ≠ a ∧ v ∉ t := by simpa using h
      have step1 : posOf ((a :: t) ++ [x]) v = (posOf (t ++ [x]) v).map (· + 1) := by
        simp [posOf, hv.1]
      rw [step1, ih hv.2]
      by_cases hx : v = x
      · simp [hx]
      · simp [hx]

theorem lookupIdx_numerateFrom {α : Type} [DecidableEq α] (d : List α)
    (k : ℕ) (v : α) :
    lookupIdx (numerateFrom k d) v = (posOf d v).map (· + k) := by
  induction d generalizing k with
  | nil => simp [numerateFrom, lookupIdx, posOf]
  | cons a t ih =>
      by_cases h : v = a
      · simp [numerateFrom, lookupIdx, posOf, h]
      · simp only [numerateFrom, lookupIdx, if_neg h, posOf, ih]
        cases hp : posOf t v with
        | some n => simp [Nat.add_assoc, Nat.add_comm 1 k]
        | none => simp

theorem lookupIdx_numerate {α : Type} [DecidableEq α] (d : List α) (v : α) :
    lookupIdx (numerate d) v = posOf d v := by
  rw [numerate, lookupIdx_numerateFrom]
  cases h : posOf d v <;> simp

/-- The invariant tying the index object to the domain list: the domain has
no duplicates and `i[v]` is exactly the position of `v` in the domain. -/
def Good {α : Type} [DecidableEq α] (st : OrdState α) : Prop :=
  st.d.Nodup ∧ ∀ v, lookupIdx st.idx v = posOf st.d v

theorem good_init {α : Type} [DecidableEq α] : Good (initState α) :=
  ⟨List.nodup_nil, fun _ => rfl⟩

theorem dedup_foldl_nodup {α : Type} [DecidableEq α] (xs : List α)
    (acc : List α) (h : acc.Nodup) :
    (xs.foldl (fun acc o => if o ∈ acc then acc else acc ++ [o]) acc).Nodup := by
  induction xs generalizing acc with
  | nil => exact h
  | cons o t ih =>
      simp only [List.foldl_cons]
      by_cases hm : o ∈ acc
      · simpa [hm] using ih acc h
      · have hacc : (acc ++ [o]).Nodup := by
          simp [List.nodup_append, h, hm]
        simpa [hm] using ih (acc ++ [o]) hacc

theorem jsDedup_nodup {α : Type} [DecidableEq α] (xs : List α) :
    (jsDedup xs).Nodup :=
  dedup_foldl_nodup xs [] List.nodup_nil

theorem good_setDomain {α : Type} [DecidableEq α] (vals : List α) :
    Good (setDomain vals) :=
  ⟨jsDedup_nodup vals, fun v => lookupIdx_numerate (jsDedup vals) v⟩

theorem good_discover {α : Type} [DecidableEq α] (st : OrdState α) (x : α)
    (h : Good st) : Good (discover st x) := by
  cases hl : lookupIdx st.idx x with
  | some n => simpa [discover, hl] using h
  | none =>
      have hpos : posOf st.d x = none := by rw [← h.2 x, hl]
      have hx : x ∉ st.d := (posOf_eq_none_iff _ _).mp hpos
      refine ⟨?_, ?_⟩
      · simp [discover, hl, List.nodup_append, h.1, hx]
      · intro v
        by_cases hv : v = x
        · subst hv
          simp [discover, hl, lookupIdx, posOf_append_of_not_mem v hx]
        · simp only [discover, hl, lookupIdx, if_neg hv, h.2 v]
          by_cases hm : v ∈ st.d
          · rw [posOf_append_of_mem x hm]
          · rw [posOf_append_of_not_mem x hm, if_neg hv,
              (posOf_eq_none_iff _ _).mpr hm]

theorem good_applyOp {α : Type} [DecidableEq α] (st : OrdState α)
    (op : ScaleOp α) (h : Good st) : Good (applyOp st op) := by
  cases op with
  | domainOp vals => exact good_setDomain vals
  | invokeOp x => exact good_discover st x h

theorem good_applyOps {α : Type} [DecidableEq α] (st : OrdState α)
    (ops : List (ScaleOp α)) (h : Good st) : Good (applyOps st ops) := by
  induction ops generalizing st with
  | nil => exact h
  | cons op t ih => exact ih (applyOp st op) (good_applyOp st op h)

/-- C4: invoking an ordinal scale with range `r` of positive length on a
value `x` returns `r[i[x] % r.length]`; an unknown `x` is first appended to
the domain with the next free index; and the lookup never fails (range
wraparound, never a crash) no matter how many distinct values were seen. -/
theorem ordinal_invoke_contract {α β : Type} [DecidableEq α]
    (st : OrdState α) (r : List β) (x : α) (hr : 0 < r.length) :
    (∃ n, lookupIdx (scaleApply st r x).1.idx x = some n ∧
        (scaleApply st r x).2 = r.get? (n % r.length) ∧
        ((scaleApply st r x).2).isSome) ∧
    (lookupIdx st.idx x = none →
        (scaleApply st r x).1.d = st.d ++ [x] ∧
        lookupIdx (scaleApply st r x).1.idx x = some st.d.length) ∧
    (lookupIdx st.idx x ≠ none → (scaleApply st r x).1 = st) := by
  cases hl : lookupIdx st.idx x with
  | none =>
      have hidx : lookupIdx (discover st x).idx x = some st.d.length := by
        simp [discover, hl, lookupIdx]
      have hsome : (r.get? (st.d.length % r.length)).isSome := by
        rw [List.get?_eq_get (Nat.mod_lt _ hr)]
        rfl
      refine ⟨⟨st.d.length, ?_, ?_, ?_⟩, fun _ => ⟨?_, ?_⟩, fun hc => absurd rfl hc⟩
      · simpa [scaleApply] using hidx
      · simp [scaleApply, hidx]
      · simpa [scaleApply, hidx] using hsome
      · simp [scaleApply, discover, hl]
      · simpa [scaleApply] using hidx
  | some n =>
      have hidx : lookupIdx (discover st x).idx x = some n := by
        simp [discover, hl]
      have hsome : (r.get? (n % r.length)).isSome := by
        rw [List.get?_eq_get (Nat.mod_lt _ hr)]
        rfl
      refine ⟨⟨n, ?_, ?_, ?_⟩, fun hc => absurd hc (by simp), fun _ => ?_⟩
      · simpa [scaleApply] using hidx
      · simp [scaleApply, hidx]
      · simpa [scaleApply, hidx] using hsome
      · simp [scaleApply, discover, hl]

/-- Witness for C4: a concrete scale seeded with three domain values and a
two-element range, invoked on a fourth value — the domain grows and the
lookup wraps around the range without failing. -/
theorem ordinal_invoke_contract_witness :
    ((scaleApply (setDomain [1, 2, 1, 3]) ["a", "b"] 9).2).isSome ∧
    (scaleApply (setDomain [1, 2, 1, 3]) ["a", "b"] 9).1.d = [1, 2, 3, 9] := by
  obtain ⟨⟨n, hn, hv, hs⟩, h2, h3⟩ :=
    ordinal_invoke_contract (setDomain [1, 2, 1, 3]) ["a", "b"] 9 (by decide)
  refine ⟨hs, ((h2 (by decide)).1).trans (by decide)⟩

/-- C5: after any sequence of domain-setter calls and scale invocations the
domain has no duplicates and the index object maps every value to its
position in the domain; seeding the domain with `[a, b, a, c]` (with
`a`, `b`, `c` pairwise distinct) keeps the first-seen order `[a, b, c]`. -/
theorem ordinal_domain_invariant {α : Type} [DecidableEq α]
    (ops : List (ScaleOp α)) (a b c : α)
    (hab : a ≠ b) (hac : a ≠ c) (hbc : b ≠ c) :
    ((applyOps (initState α) ops).d.Nodup ∧
      ∀ v, lookupIdx (applyOps (initState α) ops).idx v
        = posOf (applyOps (initState α) ops).d v) ∧
    (setDomain [a, b, a, c]).d = [a, b, c] := by
  refine ⟨good_applyOps (initState α) ops good_init, ?_⟩
  simp [setDomain, jsDedup, Ne.symm hab, Ne.symm hac, Ne.symm hbc]

/-- Witness for C5: a concrete operation sequence over `ℕ` and the concrete
seeding `[0, 1, 0, 2]`. -/
theorem ordinal_domain_invariant_witness :
    (applyOps (initState ℕ)
        [ScaleOp.domainOp [5, 6], ScaleOp.invokeOp 7]).d.Nodup ∧
    (setDomain [0, 1, 0, 2]).d = [0, 1, 2] := by
  obtain ⟨⟨h1, _⟩, h2⟩ :=
    ordinal_domain_invariant [ScaleOp.domainOp [5, 6], ScaleOp.invokeOp 7]
      0 1 2 (by decide) (by decide) (by decide)
  exact ⟨h1, h2⟩

/-- C7: the branch behaviour of `invertIndex` — `-1` on an empty domain,
`0` on a zero-width range, the sentinel `N` at or above `range.max`,
saturation to `0` below `range.min`, and otherwise the (optionally rounded)
linear inverse; the function is total, so no input raises an error. -/
theorem invertIndex_spec (N : ℕ) (rmin rmax y : ℚ) (noRound : Bool) :
    (N = 0 → invertIndex N rmin rmax y noRound = -1) ∧
    (N ≠ 0 → rmax - rmin = 0 → invertIndex N rmin rmax y noRound = 0) ∧
    (N ≠ 0 → rmax - rmin ≠ 0 → rmax ≤ y →
      invertIndex N rmin rmax y noRound = N) ∧
    (N ≠ 0 → rmax - rmin ≠ 0 → y < rmax → y < rmin →
      invertIndex N rmin rmax y noRound = 0) ∧
    (N ≠ 0 → rmax - rmin ≠ 0 → y < rmax → rmin ≤ y →
      invertIndex N rmin rmax y noRound =
        if noRound then (y - rmin) / ((rmax - rmin) / N)
        else (jsRound ((y - rmin) / ((rmax - rmin) / N)) : ℚ)) := by
  refine ⟨fun h0 => by simp [invertIndex, h0], ?_, ?_, ?_, ?_⟩
  · intro h0 hR
    simp [invertIndex, h0, hR]
  · intro h0 hR hy
    simp [invertIndex, h0, hR, hy]
  · intro h0 hR hy hlt
    simp [invertIndex, h0, hR, not_le.mpr hy, hlt]
  · intro h0 hR hy hge
    simp [invertIndex, h0, hR, not_le.mpr hy, not_lt.mpr hge]

/-- Witness for C7: the spec's own example, range `[0, 100]` with a domain
of four values: `invertIndex 12 == round(12/25) == 0` and
`invertIndex 99 == 4`, `invertIndex (-5) == 0`, `invertIndex 13 true = 13/25`. -/
theorem invertIndex_spec_witness :
    invertIndex 4 0 100 12 false = 0 ∧
    invertIndex 4 0 100 99 false = 4 ∧
    invertIndex 4 0 100 (-5) false = 0 ∧
    invertIndex 4 0 100 13 true = 13 / 25 := by
  refine ⟨?_, ?_, ?_, ?_⟩
  · have h := (invertIndex_spec 4 0 100 12 false).2.2.2.2
      (by decide) (by norm_num) (by norm_num) (by norm_num)
    rw [h]
    norm_num [jsRound]
  · have h := (invertIndex_spec 4 0 100 99 false).2.2.2.2
      (by decide) (by norm_num) (by norm_num) (by norm_num)
    rw [h]
    norm_num [jsRound]
  · have h := (invertIndex_spec 4 0 100 (-5) false).2.2.2.1
      (by decide) (by norm_num) (by norm_num) (by norm_num)
    rw [h]
  · have h := (invertIndex_spec 4 0 100 13 true).2.2.2.2
      (by decide) (by norm_num) (by norm_num) (by norm_num)
    rw [h]
    norm_num

/-- Counterexample for C8 as stated: with `max == min == 5` and a domain of
two values, `splitFlush` produces the empty range, not two positions equal
to `5`. -/
theorem split_degenerate_cex :
    (splitFlush 2 (5 : ℚ) 5).vals = [] ∧
    (splitFlush 2 (5 : ℚ) 5).vals ≠ List.replicate 2 (5 : ℚ) := by
  have hv : (splitFlush 2 (5 : ℚ) 5).vals = [] := by
    norm_num [splitFlush, pvRange]
  constructor
  · exact hv
  · rw [hv]
    simp

/-- C8 (amended): when `max == min`, no split algorithm fails; `split`,
`splitBandedCenter` and `splitBandedFlushCenter` produce `N` positions all
equal to `min` (as does `splitFlush` when `N == 1`), but `splitFlush` with
`N ≥ 2` and `splitBanded` with `band ≥ 0` produce an empty range instead. -/
theorem split_degenerate_amended (N : ℕ) (mn band : ℚ)
    (hN : 1 ≤ N) (hband : 0 ≤ band) :
    (split N mn mn).vals = List.replicate N mn ∧
    (splitBandedCenter N mn mn (some band)).vals = List.replicate N mn ∧
    (splitBandedFlushCenter N mn mn (some band)).vals = List.replicate N mn ∧
    (splitFlush 1 mn mn).vals = [mn] ∧
    (2 ≤ N → (splitFlush N mn mn).vals = []) ∧
    (splitBanded N mn mn (some band)).vals = [] := by
  refine ⟨?_, ?_, ?_, ?_, ?_, ?_⟩
  · simp [split, pvArray]
  · simp [splitBandedCenter, split, pvArray]
  · simp [splitBandedFlushCenter, pvArray]
  · norm_num [splitFlush]
  · intro h2
    have hne : N ≠ 1 := by omega
    simp [splitFlush, hne, pvRange]
  · have : ¬ band < 0 := not_lt.mpr hband
    simp [splitBanded, this, pvRange]

/-- Witness for C8 (amended): the degenerate interval `[5, 5]` with a
two-value domain and band `1`. -/
theorem split_degenerate_amended_witness :
    (split 2 (5 : ℚ) 5).vals = [5, 5] ∧
    (splitBanded 2 (5 : ℚ) 5 (some 1)).vals = [] := by
  obtain ⟨h1, _, _, _, _, h6⟩ :=
    split_degenerate_amended 2 5 1 (by decide) (by norm_num)
  exact ⟨h1.trans (by norm_num [List.replicate]), h6⟩

theorem pvRange_get (start stop step : ℚ) (k : ℕ)
    (hk : k < (pvRange start stop step).length) :
    (pvRange start stop step).get? k = some (start + step * k) := by
  unfold pvRange at hk ⊢
  by_cases h : 0 < step
  · simp only [if_pos h] at hk ⊢
    rw [List.length_map, List.length_range] at hk
    rw [List.get?_map, List.get?_range hk]
    rfl
  · simp [if_neg h] at hk

/-- C6: the two modes of `splitBanded`.  With `band ≥ 0` the step is
`(max-min)/(N + (1-band))`, the produced positions are
`min + step*(1-band) + k*step`, and the range carries `band == step*band`
and `margin == step - band`.  With `band < 0` every band has the fixed
width `-band` and the positions are `min + padding + k*(padding - band)`
with `padding == (max - min - N*(-band))/(N+1)`, the first one being
exactly `min + padding`. -/
theorem splitBanded_spec (N : ℕ) (mn mx band : ℚ) (hN : 1 ≤ N)
    (hmm : mn < mx) :
    (0 ≤ band → ∃ step : ℚ, step = (mx - mn) / ((N : ℚ) + (1 - band)) ∧
      (splitBanded N mn mx (some band)).step = some step ∧
      (splitBanded N mn mx (some band)).band = some (step * band) ∧
      (splitBanded N mn mx (some band)).margin = some (step - step * band) ∧
      ∀ k : ℕ, k < (splitBanded N mn mx (some band)).vals.length →
        (splitBanded N mn mx (some band)).vals.get? k
          = some (mn + step * (1 - band) + step * k)) ∧
    (band < 0 → ∃ padding : ℚ,
      padding = (mx - mn - (N : ℚ) * (-band)) / ((N : ℚ) + 1) ∧
      (splitBanded N mn mx (some band)).band = some (-band) ∧
      (∀ k : ℕ, k < (splitBanded N mn mx (some band)).vals.length →
        (splitBanded N mn mx (some band)).vals.get? k
          = some (mn + padding + (padding - band) * k)) ∧
      (splitBanded N mn mx (some band)).vals.head? = some (mn + padding)) := by
  have hsb : splitBanded N mn mx (some band) =
      if band < 0 then
        { vals := pvRange (mn + (mx - mn - -band * (N : ℚ)) / ((N : ℚ) + 1))
            mx ((mx - mn - -band * (N : ℚ)) / ((N : ℚ) + 1) - band),
          min := mn, max := mx,
          step := none, band := some (-band), margin := none }
      else
        { vals := pvRange
            (mn + (mx - mn) / ((N : ℚ) + (1 - band)) * (1 - band)) mx
            ((mx - mn) / ((N : ℚ) + (1 - band))),
          min := mn, max := mx,
          step := some ((mx - mn) / ((N : ℚ) + (1 - band))),
          band := some ((mx - mn) / ((N : ℚ) + (1 - band)) * band),
          margin := some ((mx - mn) / ((N : ℚ) + (1 - band))
            - (mx - mn) / ((N : ℚ) + (1 - band)) * band) } := by
    simp [splitBanded]
  constructor
  · intro hb
    have hnb : ¬ band < 0 := not_lt.mpr hb
    rw [hsb, if_neg hnb]
    refine ⟨(mx - mn) / ((N : ℚ) + (1 - band)), rfl, rfl, rfl, rfl, ?_⟩
    intro k hk
    exact pvRange_get _ mx _ k hk
  · intro hb
    have hR : (0 : ℚ) < mx - mn := by linarith
    have hN1 : (0 : ℚ) < (N : ℚ) + 1 := by positivity
    rw [hsb, if_pos hb]
    set padding := (mx - mn - -band * (N : ℚ)) / ((N : ℚ) + 1) with hpad
    have hpad' : padding = (mx - mn - (N : ℚ) * (-band)) / ((N : ℚ) + 1) := by
      rw [hpad]; ring_nf
    have hstep : padding - band = (mx - mn - band) / ((N : ℚ) + 1) := by
      rw [hpad]; field_simp; ring
    have hsteppos : 0 < padding - band := by
      rw [hstep]
      exact div_pos (by linarith) hN1
    have hspan : mx - (mn + padding) = (N : ℚ) * (padding - band) := by
      rw [hstep, hpad]; field_simp; ring
    have hdiv : (mx - (mn + padding)) / (padding - band) = (N : ℚ) := by
      rw [hspan, mul_div_assoc, div_self (ne_of_gt hsteppos), mul_one]
    have hlen : (pvRange (mn + padding) mx (padding - band)).length = N := by
      rw [pvRange, if_pos hsteppos, List.length_map, List.length_range, hdiv]
      simp
    refine ⟨padding, hpad', rfl, ?_, ?_⟩
    · intro k hk
      exact pvRange_get _ mx _ k hk
    · have h0 := pvRange_get (mn + padding) mx (padding - band) 0
        (by rw [hlen]; omega)
      rw [← List.get?_zero, h0]
      norm_num

/-- Witness for C6: the spec's example `splitBanded(0, 100, 1)` with a
two-value domain: step `50`, band `50`, margin `0`, and the produced
positions are `0` and `50`. -/
theorem splitBanded_spec_witness :
    (splitBanded 2 0 100 (some 1)).step = some 50 ∧
    (splitBanded 2 0 100 (some 1)).band = some 50 ∧
    (splitBanded 2 0 100 (some 1)).margin = some 0 ∧
    (splitBanded 2 0 100 (some 1)).vals = [0, 50] := by
  obtain ⟨hA, _⟩ := splitBanded_spec 2 0 100 1 (by decide) (by norm_num)
  obtain ⟨step, hstepval, hstep, hband, hmargin, _⟩ := hA (by norm_num)
  have h50 : step = 50 := by rw [hstepval]; norm_num
  rw [h50] at hstep hband hmargin
  have hveq : (splitBanded 2 0 100 (some 1)).vals = pvRange 0 100 50 := by
    norm_num [splitBanded]
  have hceil : ⌈((100 : ℚ) - 0) / 50⌉ = (2 : ℤ) := by norm_num
  have hcount : Int.toNat ⌈((100 : ℚ) - 0) / 50⌉ = 2 := by rw [hceil]; rfl
  have hlist : pvRange 0 100 50 = [0, 50] := by
    rw [pvRange, if_pos (by norm_num : (0 : ℚ) < 50), hcount]
    norm_num [List.range_succ]
  exact ⟨hstep, by simpa using hband, by simpa using hmargin,
    hveq.trans hlist⟩

/-! ### Theorems about the Dot resolver -/

/-- The height/width computation of `buildImplied`, expressed against the
resolved radius: the circular branch when the effective aspect is `1` or
negative, the area-preserving branch otherwise. -/
theorem buildImplied_hw (s : DotScene) (r : ℝ)
    (hr : (buildImplied s).shapeRadius = some r) :
    ((effAspect s = 1 ∨ effAspect s < 0) →
      (buildImplied s).heightI = 2 * r ∧ (buildImplied s).widthI = 2 * r) ∧
    (¬(effAspect s = 1 ∨ effAspect s < 0) →
      (buildImplied s).heightI = 2 * r / Real.sqrt (effAspect s) ∧
      (buildImplied s).widthI = effAspect s * ((buildImplied s).heightI)) := by
  constructor <;> intro hcase <;>
    rcases h1 : s.shapeRadius with _ | r0 <;>
      rcases h2 : s.shapeSize with _ | z0 <;>
        simp [buildImplied, h1, h2, hcase] at hr ⊢ <;>
          subst hr <;> simp

/-- C1: the radius/size duality of `buildImplied`: defaults `4.5`/`20.25`
when both are unset; `shapeRadius = sqrt(shapeSize)` when only the size is
given; `shapeSize = shapeRadius²` when only the radius is given. -/
theorem dot_radius_size_duality (s : DotScene) (r z : ℝ) :
    (s.shapeRadius = none → s.shapeSize = none →
      (buildImplied s).shapeRadius = some 4.5 ∧
      (buildImplied s).shapeSize = some 20.25) ∧
    (s.shapeRadius = none → s.shapeSize = some z → 0 < z →
      (buildImplied s).shapeRadius = some (Real.sqrt z) ∧
      (buildImplied s).shapeSize = some z) ∧
    (s.shapeRadius = some r → s.shapeSize = none → 0 < r →
      (buildImplied s).shapeRadius = some r ∧
      (buildImplied s).shapeSize = some (r * r)) := by
  refine ⟨fun h1 h2 => ?_, fun h1 h2 _ => ?_, fun h1 h2 _ => ?_⟩ <;>
    simp [buildImplied, h1, h2]

/-- A scene with no declared geometric properties. -/
noncomputable def sceneBare : DotScene :=
  { shape := "circle", shapeRadius := none, shapeSize := none,
    aspectRatio := none, left := 0, top := 0, right := 0, bottom := 0,
    heightI := 0, widthI := 0 }

/-- Witness for C1: the three resolution cases on concrete scenes —
defaults, `shapeSize = 9 ↦ shapeRadius = 3`, and
`shapeRadius = 2 ↦ shapeSize = 4`. -/
theorem dot_radius_size_duality_witness :
    (buildImplied sceneBare).shapeRadius = some 4.5 ∧
    (buildImplied sceneBare).shapeSize = some 20.25 ∧
    (buildImplied { sceneBare with shapeSize := some 9 }).shapeRadius
      = some 3 ∧
    (buildImplied { sceneBare with shapeRadius := some 2 }).shapeSize
      = some 4 := by
  have hA := (dot_radius_size_duality sceneBare 0 0).1 rfl rfl
  have hB := (dot_radius_size_duality { sceneBare with shapeSize := some 9 }
    0 9).2.1 rfl rfl (by norm_num)
  have hC := (dot_radius_size_duality { sceneBare with shapeRadius := some 2 }
    2 0).2.2 rfl rfl (by norm_num)
  refine ⟨hA.1, hA.2, ?_, ?_⟩
  · rw [hB.1]
    rw [show (9 : ℝ) = 3 ^ 2 by norm_num,
      Real.sqrt_sq (by norm_num : (0 : ℝ) ≤ 3)]
  · rw [hC.2]
    norm_num

/-- C2: with resolved radius `r` and effective aspect `a`, `buildImplied`
sets `_height = _width = 2r` when `a == 1` or `a < 0`, otherwise
`_height = 2r/sqrt(a)` and `_width = a*_height`; for every `a > 0` the
product `_width * _height` is `4r²` (area preservation). -/
theorem dot_aspect_area (s : DotScene) (r : ℝ)
    (hr : (buildImplied s).shapeRadius = some r) :
    ((effAspect s = 1 ∨ effAspect s < 0) →
      (buildImplied s).heightI = 2 * r ∧ (buildImplied s).widthI = 2 * r) ∧
    (¬(effAspect s = 1 ∨ effAspect s < 0) →
      (buildImplied s).heightI = 2 * r / Real.sqrt (effAspect s) ∧
      (buildImplied s).widthI = effAspect s * ((buildImplied s).heightI)) ∧
    (0 < effAspect s →
      (buildImplied s).widthI * (buildImplied s).heightI = 4 * (r * r)) := by
  obtain ⟨hA, hB⟩ := buildImplied_hw s r hr
  refine ⟨hA, hB, fun hpos => ?_⟩
  by_cases hcase : effAspect s = 1 ∨ effAspect s < 0
  · obtain ⟨hh, hw⟩ := hA hcase
    rw [hh, hw]
    ring
  · obtain ⟨hh, hw⟩ := hB hcase
    have hsq : Real.sqrt (effAspect s) * Real.sqrt (effAspect s)
        = effAspect s := Real.mul_self_sqrt hpos.le
    have hne : Real.sqrt (effAspect s) ≠ 0 :=
      ne_of_gt (Real.sqrt_pos.mpr hpos)
    rw [hw, hh]
    field_simp
    ring

/-- The spec's aspect-ratio example scene: radius `4.5`, aspect `0.25`. -/
noncomputable def sceneAspect : DotScene :=
  { sceneBare with shapeRadius := some 4.5, aspectRatio := some 0.25 }

/-- Witness for C2: the spec's example `aspectRatio = 0.25`,
`shapeRadius = 4.5`: `_height = 18`, `_width = 4.5`. -/
theorem dot_aspect_area_witness :
    (buildImplied sceneAspect).heightI = 18 ∧
    (buildImplied sceneAspect).widthI = 4.5 := by
  have heff : effAspect sceneAspect = 0.25 := by
    norm_num [effAspect, sceneAspect, sceneBare]
  have hr : (buildImplied sceneAspect).shapeRadius = some 4.5 := by
    simp [buildImplied, sceneAspect, sceneBare]
  obtain ⟨_, hB, _⟩ := dot_aspect_area sceneAspect 4.5 hr
  obtain ⟨hh, hw⟩ := hB (by rw [heff]; norm_num)
  have hs : Real.sqrt (0.25 : ℝ) = 0.5 := by
    rw [show (0.25 : ℝ) = 0.5 ^ 2 by norm_num,
      Real.sqrt_sq (by norm_num : (0 : ℝ) ≤ 0.5)]
  rw [heff] at hh hw
  rw [hs] at hh
  have hh18 : (buildImplied sceneAspect).heightI = 18 := by
    rw [hh]; norm_num
  refine ⟨hh18, ?_⟩
  rw [hw, hh18]
  norm_num

/-- C10: an `aspectRatio` of `0` is falsy in JavaScript, so `a || 1`
replaces it by `1` and the `sqrt(a)` branch is never reached with `a == 0`:
both internal extents are `2 * shapeRadius`.  (The other falsy numeric
value, `NaN`, has no counterpart in this real-number embedding.) -/
theorem dot_aspect_zero_safe (s : DotScene) (r : ℝ)
    (ha : s.aspectRatio = some 0)
    (hr : (buildImplied s).shapeRadius = some r) :
    (buildImplied s).widthI = 2 * r ∧ (buildImplied s).heightI = 2 * r := by
  have heff : effAspect s = 1 := by simp [effAspect, ha]
  obtain ⟨hh, hw⟩ := (buildImplied_hw s r hr).1 (Or.inl heff)
  exact ⟨hw, hh⟩

/-- A scene with `aspectRatio = 0` and radius `3`. -/
noncomputable def sceneZeroAspect : DotScene :=
  { sceneBare with shapeRadius := some 3, aspectRatio := some 0 }

/-- Witness for C10: the `aspectRatio = 0` scene resolves to
`_width = _height = 6`, not to a division-by-zero degenerate. -/
theorem dot_aspect_zero_safe_witness :
    (buildImplied sceneZeroAspect).widthI = 6 ∧
    (buildImplied sceneZeroAspect).heightI = 6 := by
  have hr : (buildImplied sceneZeroAspect).shapeRadius = some 3 := by
    simp [buildImplied, sceneZeroAspect, sceneBare]
  obtain ⟨hw, hh⟩ := dot_aspect_zero_safe sceneZeroAspect 3 rfl hr
  constructor
  · rw [hw]; norm_num
  · rw [hh]; norm_num

/-- A concrete resolved host scene for the anchor claims: centred at
`(10, 20)`, extents `_width = 8`, `_height = 6`, `bottom = 0`. -/
noncomputable def hostScene : DotScene :=
  { shape := "circle", shapeRadius := some 4.5, shapeSize := some 20.25,
    aspectRatio := some 1, left := 10, top := 20, right := 0, bottom := 0,
    heightI := 6, widthI := 8 }

/-- Counterexample for C3 as stated: the "top" anchor's `bottom()` reads
the host's `bottom` coordinate, not its `top` coordinate — on a host with
`top = 20`, `bottom = 0`, `_height = 6` it returns `3`, not
`s.top + s._height/2 = 23`. -/
theorem dot_anchor_top_bottom_cex :
    anchorBottom hostScene "top" = some 3 ∧
    anchorBottom hostScene "top"
      ≠ some (hostScene.top + hostScene.heightI / 2) := by
  constructor
  · show some ((0 : ℝ) + 6 / 2) = some 3
    norm_num
  · show some ((0 : ℝ) + 6 / 2) ≠ some ((20 : ℝ) + 6 / 2)
    simp

/-- C3 (amended): for every host scene `s` the Dot anchor "top" yields
`left() == s.left`, `right() == null`, `top() == null`,
`bottom() == s.bottom + s._height/2`, `textAlign() == "center"` and
`textBaseline() == "bottom"`; for a host with `bottom = 20`, `_height = 6`
the anchor's `bottom()` is `23`. -/
theorem dot_anchor_top_spec (s : DotScene) :
    anchorLeft s "top" = some s.left ∧
    anchorRight s "top" = none ∧
    anchorTop s "top" = none ∧
    anchorBottom s "top" = some (s.bottom + s.heightI / 2) ∧
    anchorTextAlign "top" = "center" ∧
    anchorTextBaseline "top" = "bottom" := by
  refine ⟨rfl, ?_, rfl, ?_, rfl, rfl⟩
  · simp [anchorRight]
  · simp [anchorBottom]

/-- C9: the hit-test primitive of a resolved instance: squares and crosses
yield the axis-aligned rectangle centred at `(left, top)` with width
`_height` and height `_width` (the deliberate swap); a diamond the same
rectangle with both extents scaled by `√2`; every other shape a circle of
radius `shapeRadius`. -/
theorem dot_getShapeCore_spec (s : DotScene) (r : ℝ)
    (hr : s.shapeRadius = some r) :
    ((s.shape = "square" ∨ s.shape = "cross") →
      getShapeCore s = PvShape.rect (s.left - s.heightI / 2)
        (s.top - s.widthI / 2) s.heightI s.widthI) ∧
    (s.shape = "diamond" →
      getShapeCore s = PvShape.rect
        (s.left - s.heightI * Real.sqrt 2 / 2)
        (s.top - s.widthI * Real.sqrt 2 / 2)
        (s.heightI * Real.sqrt 2) (s.widthI * Real.sqrt 2)) ∧
    (s.shape ≠ "square" → s.shape ≠ "cross" → s.shape ≠ "diamond" →
      getShapeCore s = PvShape.circle s.left s.top r) := by
  refine ⟨fun hsq => ?_, fun hd => ?_, fun h1 h2 h3 => ?_⟩
  · rcases hsq with h | h <;> simp [getShapeCore, h]
  · simp [getShapeCore, hd]
  · unfold getShapeCore
    split
    · simp_all
    · simp_all
    · simp_all
    · simp [hr]

/-- Witness for C9: the circle default on the concrete host scene (shape
"circle", radius `4.5`): a circle at `(10, 20)` with radius `4.5`. -/
theorem dot_getShapeCore_spec_witness :
    getShapeCore hostScene = PvShape.circle 10 20 4.5 := by
  have h := (dot_getShapeCore_spec hostScene 4.5 rfl).2.2
    (by decide) (by decide) (by decide)
  exact h

end Protovis
